import Mathlib

/-!
# Kuro share-link service: verification of the specification

The repository is the browser client of the Kuro digital vault.  Its spec
treats the backend Share Link Service (token issuance, optional password,
optional expiry, access counting, redemption) as the system core; the
service itself is not among the frontend sources, so it is modelled here
from the spec.  The frontend pieces that the claims cite directly — the
`isExpired` helper of `SharedLinksView`, the `ShareModal` create-link
payload logic, and the axios 401 response interceptor — are embedded from
the source files.
-/

namespace Kuro

/-- Modelled from the spec: a stored file record as seen through the File
Store collaborator `get(file_id) -> (owner_id, name, size, type, content)`
(spec §6); the backend File Store is not in the repository sources. -/
structure FileRec where
  fid : Nat
  fowner : Nat
  name : String
  size : Nat
  ftype : String
  content : String
deriving Repr, DecidableEq

/-- Modelled from the spec: the opaque salted slow hash value produced by the
Credential Verifier's `set(plaintext)` (spec §4.2); the backend hasher is not
in the repository sources.  It is modelled as an injective tagged wrapper of
the plaintext, which captures exactly "verify succeeds iff the plaintext
matches". -/
structure PasswordHash where
  digest : String
deriving Repr, DecidableEq

/-- Modelled from the spec: the ShareLink record of §3 (id, token, file_id,
owner_id, optional password_hash, optional expires_at, access_count,
created_at); the backend store is not in the repository sources.
Timestamps are modelled as `Nat` milliseconds. -/
structure ShareLink where
  id : Nat
  token : String
  file_id : Nat
  owner_id : Nat
  password_hash : Option PasswordHash
  expires_at : Option Nat
  access_count : Nat
  created_at : Nat
deriving Repr, DecidableEq

/-- Modelled from the spec: `set(plaintext) -> hash` of the Credential
Verifier (spec §4.2). -/
def hashPassword (p : String) : PasswordHash := ⟨p⟩

/-- Modelled from the spec: `verify(plaintext_or_absent, hash_or_absent)`
(spec §4.2): no stored hash ⇒ always true; stored hash and no plaintext ⇒
false; both present ⇒ true iff the plaintext hashes to the stored hash. -/
def verify (plaintext : Option String) (stored : Option PasswordHash) : Bool :=
  match stored with
  | none => true
  | some h =>
    match plaintext with
    | none => false
    | some p => hashPassword p == h

/-- Milliseconds per hour, the unit used to turn `expires_in_hours` into an
absolute `expires_at` timestamp. -/
def msPerHour : Nat := 3600000

/-- Modelled from the spec: `compute(now, hours_from_now_or_absent)` of the
Expiry Policy (spec §4.3): absent duration gives absent `expires_at`. -/
def computeExpiry (now : Nat) (hours : Option Nat) : Option Nat :=
  hours.map (fun h => now + h * msPerHour)

/-- Modelled from the spec: `is_expired(expires_at_or_absent, now)` of the
Expiry Policy (spec §4.3): pure comparison `expires_at < now`, equality is
not yet expired, absent `expires_at` is never expired. -/
def is_expired (expires_at : Option Nat) (now : Nat) : Bool :=
  match expires_at with
  | none => false
  | some e => decide (e < now)

/-- Embedded from src/frontend/src/components/FilePreview.jsx (the
`SharedLinksView` component), lines 167-170: `isExpired(expiresAt)` returns
false for an absent expiry and otherwise compares
`new Date(expiresAt) < new Date()`, the current instant supplied here as the
`now` argument. -/
def isExpired (expiresAt : Option Nat) (now : Nat) : Bool :=
  match expiresAt with
  | none => false
  | some e => decide (e < now)

end Kuro

namespace Kuro

/-- Modelled from the spec: the durable Share Link Store together with the
File Store collaborator (spec §4.4, §6); deleted links are simply absent
from `links`. -/
structure ServiceState where
  links : List ShareLink
  files : List FileRec
deriving Repr, DecidableEq

/-- Store lookup of a link by its public token (`get_by_token`, spec §4.4). -/
def findByToken (links : List ShareLink) (t : String) : Option ShareLink :=
  links.find? (fun l => l.token == t)

/-- Store lookup of a link by its owner-facing id (`get_by_id`, spec §4.4). -/
def findById (links : List ShareLink) (i : Nat) : Option ShareLink :=
  links.find? (fun l => l.id == i)

/-- File Store lookup by file id (spec §6 collaborator interface). -/
def findFile (files : List FileRec) (i : Nat) : Option FileRec :=
  files.find? (fun f => f.fid == i)

/-- Modelled from the spec: the public metadata returned by
`resolve_public` — file name, size, type, `requires_password`, and
`expires_at` when present (spec §4.5); these are exactly its fields. -/
structure PublicMetadata where
  file_name : String
  file_size : Nat
  file_type : String
  requires_password : Bool
  expires_at : Option Nat
deriving Repr, DecidableEq

/-- Result type of `resolve_public` (spec §4.5). -/
inductive ResolveResult where
  | notFound
  | gone
  | ok (meta : PublicMetadata)
deriving Repr, DecidableEq

/-- Result type of `redeem` (spec §4.5). -/
inductive RedeemResult where
  | notFound
  | gone
  | unauthorized
  | ok (content : String)
deriving Repr, DecidableEq

/-- Result type of `create_link` (spec §4.5). -/
inductive CreateResult where
  | forbidden
  | ok (link : ShareLink)
deriving Repr, DecidableEq

/-- Result type of `delete_link` (spec §4.4-4.5). -/
inductive DeleteResult where
  | notFound
  | forbidden
  | ok
deriving Repr, DecidableEq

/-- An authenticated management caller: account id plus admin flag. -/
structure Principal where
  uid : Nat
  isAdmin : Bool
deriving Repr, DecidableEq

/-- Modelled from the spec: `resolve_public(token)` (spec §4.5): `NotFound`
if no such token, `Gone` if expired, otherwise the public metadata.  The
state component is returned unchanged on every branch — a metadata fetch
mutates nothing. -/
def resolve_public (st : ServiceState) (t : String) (now : Nat) :
    ResolveResult × ServiceState :=
  match findByToken st.links t with
  | none => (.notFound, st)
  | some l =>
    if is_expired l.expires_at now then (.gone, st)
    else
      match findFile st.files l.file_id with
      | none => (.notFound, st)
      | some f =>
        (.ok ⟨f.name, f.size, f.ftype, l.password_hash.isSome, l.expires_at⟩, st)

/-- The atomic access-count increment of the Store
(`increment_access_count(token)`, spec §4.4), applied pointwise to the
stored list. -/
def bumpAccess (links : List ShareLink) (t : String) : List ShareLink :=
  links.map (fun l =>
    if l.token == t then { l with access_count := l.access_count + 1 } else l)

/-- Modelled from the spec: `redeem(token, password_or_absent)` (spec §4.5)
with the fixed check order existence, expiry, password; on full success the
access count is incremented and the file content returned. -/
def redeem (st : ServiceState) (t : String) (pw : Option String) (now : Nat) :
    RedeemResult × ServiceState :=
  match findByToken st.links t with
  | none => (.notFound, st)
  | some l =>
    if is_expired l.expires_at now then (.gone, st)
    else if !verify pw l.password_hash then (.unauthorized, st)
    else
      match findFile st.files l.file_id with
      | none => (.notFound, st)
      | some f => (.ok f.content, { st with links := bumpAccess st.links t })

/-- Modelled from the spec: `create_link(owner_id, file_id,
password_or_absent, expiry_hours_or_absent)` (spec §4.5): requires the file
to exist and be owned by the caller, hashes the password if given, computes
the expiry, persists the new record with `access_count = 0`.  The fresh id
and token are supplied by the caller standing in for the Token Generator. -/
def create_link (st : ServiceState) (owner : Nat) (fid : Nat)
    (pw : Option String) (hours : Option Nat) (now : Nat)
    (newId : Nat) (newTok : String) : CreateResult × ServiceState :=
  match findFile st.files fid with
  | none => (.forbidden, st)
  | some f =>
    if f.fowner == owner then
      let l : ShareLink :=
        { id := newId, token := newTok, file_id := fid, owner_id := owner,
          password_hash := pw.map hashPassword,
          expires_at := computeExpiry now hours,
          access_count := 0, created_at := now }
      (.ok l, { st with links := l :: st.links })
    else (.forbidden, st)

/-- Modelled from the spec: `delete_link(owner_id_or_admin, link_id)`
(spec §4.4-4.5): `NotFound` if no such link, `Forbidden` (state unchanged)
unless the requester is the owner or an admin, otherwise the record is
removed. -/
def delete_link (st : ServiceState) (req : Principal) (linkId : Nat) :
    DeleteResult × ServiceState :=
  match findById st.links linkId with
  | none => (.notFound, st)
  | some l =>
    if req.uid == l.owner_id || req.isAdmin then
      (.ok, { st with links := st.links.filter (fun x => x.id != linkId) })
    else (.forbidden, st)

/-- Descending creation-time order used by `list_by_owner` (spec §4.4). -/
def byCreatedDesc (a b : ShareLink) : Prop := b.created_at ≤ a.created_at

instance : DecidableRel byCreatedDesc := fun a b =>
  inferInstanceAs (Decidable (b.created_at ≤ a.created_at))

instance : IsTotal ShareLink byCreatedDesc :=
  ⟨fun a b => le_total b.created_at a.created_at⟩

instance : IsTrans ShareLink byCreatedDesc :=
  ⟨fun _ _ _ hab hbc => le_trans hbc hab⟩

/-- Modelled from the spec: `list_links(owner_id)` (spec §4.5):
the owner's non-deleted links, ordered by `created_at` descending. -/
def list_links (st : ServiceState) (owner : Nat) : List ShareLink :=
  (st.links.filter (fun l => l.owner_id == owner)).insertionSort byCreatedDesc

end Kuro

namespace Kuro

/-! ## The ShareModal creation form
Embedded from src/frontend/src/components/ShareModal.jsx. -/

/-- The local React state of `ShareModal`: the `usePassword`, `password`,
`useExpiry` and `expiryHours` `useState` hooks (ShareModal.jsx lines
30-33). -/
structure ShareModalState where
  usePassword : Bool
  password : String
  useExpiry : Bool
  expiryHours : String
deriving Repr, DecidableEq

/-- Initial hook values of `ShareModal`: toggles off, empty password,
`expiryHours = "24"` (ShareModal.jsx lines 30-33). -/
def initialShareModalState : ShareModalState :=
  { usePassword := false, password := "", useExpiry := false,
    expiryHours := "24" }

/-- The values offered by the expiry `Select` (ShareModal.jsx lines
168-172): "1", "6", "24", "72", "168". -/
def expiryOptions : List String := ["1", "6", "24", "72", "168"]

/-- The user interactions the `ShareModal` form exposes: the two `Switch`
toggles, typing in the password `Input`, and picking an item of the expiry
`Select` (which can only emit one of `expiryOptions`). -/
inductive ModalAction where
  | togglePassword (b : Bool)
  | setPassword (s : String)
  | toggleExpiry (b : Bool)
  | selectExpiry (s : String)
deriving Repr, DecidableEq

/-- State update for each interaction: `setUsePassword`, `setPassword`,
`setUseExpiry`, `setExpiryHours` (the last only ever called by the Select
with one of its item values). -/
def modalStep (st : ShareModalState) (a : ModalAction) : ShareModalState :=
  match a with
  | .togglePassword b => { st with usePassword := b }
  | .setPassword s => { st with password := s }
  | .toggleExpiry b => { st with useExpiry := b }
  | .selectExpiry s =>
    if expiryOptions.contains s then { st with expiryHours := s } else st

/-- The modal states reachable from the initial hook values through the
form's interactions. -/
inductive ModalReachable : ShareModalState → Prop where
  | init : ModalReachable initialShareModalState
  | step {st : ShareModalState} (h : ModalReachable st) (a : ModalAction) :
      ModalReachable (modalStep st a)

/-- JavaScript `parseInt` restricted to the unsigned decimal strings the
expiry `Select` can emit: fold the decimal digits of the string.  Written
over the underlying character list so it evaluates inside proofs. -/
def jsParseInt (s : String) : Int :=
  (s.data.foldl (fun acc c => acc * 10 + (c.toNat - 48)) 0 : Nat)

/-- The POST `/share` request body built by `handleCreateLink`
(ShareModal.jsx lines 38-42). -/
structure SharePayload where
  file_id : Nat
  password : Option String
  expires_in_hours : Option Int
deriving Repr, DecidableEq

/-- `handleCreateLink`'s payload: `password` is the typed password when the
toggle is on and `null` otherwise; `expires_in_hours` is
`parseInt(expiryHours)` when the toggle is on and `null` otherwise
(ShareModal.jsx lines 38-42). -/
def buildPayload (st : ShareModalState) (fid : Nat) : SharePayload :=
  { file_id := fid,
    password := if st.usePassword then some st.password else none,
    expires_in_hours :=
      if st.useExpiry then some (jsParseInt st.expiryHours) else none }

/-- The `disabled` condition of the Create Link button:
`loading || (usePassword && !password)` (ShareModal.jsx line 187). -/
def createDisabled (loading : Bool) (st : ShareModalState) : Bool :=
  loading || (st.usePassword && st.password.isEmpty)

/-! ## The axios clients and the 401 interceptor
Embedded from src/unnamed/part_000 (the `api` axios instance) and
src/frontend/src/App.js (`SharedFilePage`, which uses the plain `axios`
client with no interceptors). -/

/-- The browser-visible state the interceptor touches: the
`localStorage` entry `kuro-token` and `window.location.pathname`. -/
structure BrowserState where
  kuroToken : Option String
  path : String
deriving Repr, DecidableEq

/-- JavaScript `String.prototype.startsWith`, written over the underlying
character lists so it evaluates inside proofs. -/
def jsStartsWith (s pre : String) : Bool := pre.data.isPrefixOf s.data

/-- The `api` client's response error interceptor (part_000 lines 22-33):
on a 401 it removes `kuro-token` and, unless the path is `/auth` or starts
with `/shared/`, sets `window.location.href = "/auth"`.  Returns the new
browser state and the redirect target, if any. -/
def apiOn401 (status : Nat) (st : BrowserState) :
    BrowserState × Option String :=
  if status == 401 then
    ({ st with kuroToken := none },
     if st.path != "/auth" && !(jsStartsWith st.path "/shared/") then
       some "/auth"
     else none)
  else (st, none)

/-- The plain `axios` client used by `SharedFilePage` for the public
metadata fetch and the download (App.js lines 137, 155): it has no response
interceptor, so an error response leaves the browser state alone and
triggers no redirect. -/
def plainAxiosOnError (_status : Nat) (st : BrowserState) :
    BrowserState × Option String :=
  (st, none)

end Kuro

namespace Kuro

/-! ## Shared fixtures and helper lemmas -/

/-- A concrete stored file used by witnesses. -/
def f0 : FileRec :=
  { fid := 1, fowner := 10, name := "a.txt", size := 3,
    ftype := "document", content := "hello" }

/-- A concrete password-protected, never-expiring link over `f0`. -/
def l0 : ShareLink :=
  { id := 1, token := "tok", file_id := 1, owner_id := 10,
    password_hash := some (hashPassword "abc123"), expires_at := none,
    access_count := 0, created_at := 0 }

/-- A concrete service state holding `l0` and `f0`. -/
def st0 : ServiceState := { links := [l0], files := [f0] }

/-- The verifier accepts the password (or its absence) that the link was
created with. -/
theorem verify_self (pw : Option String) :
    verify pw (pw.map hashPassword) = true := by
  cases pw <;> simp [verify, hashPassword]

/-- Bumping the access count for token `t` rewrites exactly the link that a
token lookup finds, leaving its other fields alone. -/
theorem findByToken_bumpAccess (links : List ShareLink) (t : String) :
    findByToken (bumpAccess links t) t =
      (findByToken links t).map
        (fun l => { l with access_count := l.access_count + 1 }) := by
  induction links with
  | nil => rfl
  | cons a as ih =>
    by_cases h : a.token == t
    · simp [findByToken, bumpAccess, List.find?, h]
    · simp only [findByToken, bumpAccess, List.map] at ih ⊢
      rw [if_neg (by simpa using h)]
      simp only [List.find?, h]
      simpa [h] using ih

/-- Every reachable modal state keeps `expiryHours` within the Select's
option values. -/
theorem modalReachable_expiryHours_mem {st : ShareModalState}
    (h : ModalReachable st) : st.expiryHours ∈ expiryOptions := by
  induction h with
  | init => simp [initialShareModalState, expiryOptions]
  | step _ a ih =>
    cases a with
    | togglePassword b => simpa [modalStep] using ih
    | setPassword s => simpa [modalStep] using ih
    | toggleExpiry b => simpa [modalStep] using ih
    | selectExpiry s =>
      by_cases hs : s ∈ expiryOptions
      · simp [modalStep, hs]
      · simpa [modalStep, hs] using ih

end Kuro

namespace Kuro

/-! ## The claims -/

/-- Claim C6: `verify(plaintext_or_absent, hash_or_absent)` succeeds for
every plaintext (including absent) when the link has no stored hash; fails
when a hash is stored and no plaintext is supplied; and when both are
present succeeds exactly when the plaintext matches the stored hash. -/
theorem verify_spec :
    (∀ pw, verify pw none = true) ∧
    (∀ h, verify none (some h) = false) ∧
    (∀ p p0, verify (some p) (some (hashPassword p0)) = true ↔ p = p0) := by
  refine ⟨fun pw => rfl, fun h => rfl, fun p p0 => ?_⟩
  simp [verify, hashPassword]

/-- Witness for C6 at a concrete matching pair. -/
theorem verify_spec_witness :
    verify (some "abc123") (some (hashPassword "abc123")) = true :=
  (verify_spec.2.2 "abc123" "abc123").mpr rfl

/-- Claim C9: every create-link payload the ShareModal can issue (reachable
form state, Create button enabled) has `password = null` when the password
toggle is off and the typed non-empty password when it is on, and has
`expires_in_hours = null` when the expiry toggle is off and one of
1, 6, 24, 72, 168 when it is on. -/
theorem share_payload_spec (st : ShareModalState) (fid : Nat)
    (hr : ModalReachable st) (hd : createDisabled false st = false) :
    ((st.usePassword = false → (buildPayload st fid).password = none) ∧
     (st.usePassword = true →
       (buildPayload st fid).password = some st.password ∧
         st.password.isEmpty = false)) ∧
    ((st.useExpiry = false → (buildPayload st fid).expires_in_hours = none) ∧
     (st.useExpiry = true →
       (buildPayload st fid).expires_in_hours ∈
         [some (1 : Int), some 6, some 24, some 72, some 168])) := by
  have hmem := modalReachable_expiryHours_mem hr
  simp only [createDisabled, Bool.false_or, Bool.and_eq_false_iff] at hd
  refine ⟨⟨fun hp => by simp [buildPayload, hp], fun hp => ?_⟩,
          fun he => by simp [buildPayload, he], fun he => ?_⟩
  · rcases hd with hd | hd
    · exact absurd hp (by simp [hd])
    · exact ⟨by simp [buildPayload, hp], hd⟩
  · simp only [expiryOptions, List.mem_cons, List.not_mem_nil,
      or_false] at hmem
    rcases hmem with h1 | h1 | h1 | h1 | h1 <;>
      · simp only [buildPayload, he, if_true, h1]
        decide

/-- A concrete reachable modal state: password protection on with password
"abc", expiry on with the 6-hour option selected. -/
def stW : ShareModalState :=
  { usePassword := true, password := "abc", useExpiry := true,
    expiryHours := "6" }

/-- Witness for C9 at the modal state `stW`. -/
theorem share_payload_witness :
    (buildPayload stW 7).password = some "abc" ∧
    (buildPayload stW 7).expires_in_hours ∈
      [some (1 : Int), some 6, some 24, some 72, some 168] := by
  have hr : ModalReachable stW :=
    ModalReachable.step
      (ModalReachable.step
        (ModalReachable.step
          (ModalReachable.step ModalReachable.init (.togglePassword true))
          (.setPassword "abc"))
        (.toggleExpiry true))
      (.selectExpiry "6")
  have h := share_payload_spec stW 7 hr rfl
  exact ⟨(h.1.2 rfl).1, h.2.2 rfl⟩

/-- Claim C10: a 401 on the plain axios client used by the public shared
page changes neither the stored `kuro-token` nor the location, while a 401
on the authenticated `api` client always clears `kuro-token` and redirects
to `/auth` exactly when the current path is neither `/auth` nor under
`/shared/`. -/
theorem interceptor_401_spec (st : BrowserState) :
    plainAxiosOnError 401 st = (st, none) ∧
    (apiOn401 401 st).1.kuroToken = none ∧
    (st.path ≠ "/auth" → jsStartsWith st.path "/shared/" = false →
      (apiOn401 401 st).2 = some "/auth") ∧
    ((st.path = "/auth" ∨ jsStartsWith st.path "/shared/" = true) →
      (apiOn401 401 st).2 = none) := by
  refine ⟨rfl, by simp [apiOn401], fun h1 h2 => ?_, fun h => ?_⟩
  · simp [apiOn401, h1, h2]
  · rcases h with h | h <;> simp [apiOn401, h]

/-- A concrete browser state on the dashboard with a stored session
token. -/
def bst0 : BrowserState := { kuroToken := some "tok", path := "/dashboard" }

/-- Witness for C10: a 401 seen on the `api` client while on `/dashboard`
clears the token and redirects. -/
theorem interceptor_401_witness :
    (apiOn401 401 bst0).2 = some "/auth" :=
  (interceptor_401_spec bst0).2.2.1 (by decide) (by decide)

/-- Claim C1: `redeem` applies its checks in the fixed order existence,
expiry, password: an unknown token yields `NotFound`; an expired link
yields `Gone` whatever password was supplied (so an expired
password-protected link reports `Gone`, never `Unauthorized`); a required
password that is wrong or absent yields `Unauthorized`; otherwise the
redemption returns the file content and increments the link's
`access_count` by one. -/
theorem redeem_check_order (st : ServiceState) (t : String)
    (pw : Option String) (now : Nat) :
    (findByToken st.links t = none →
      redeem st t pw now = (.notFound, st)) ∧
    (∀ l, findByToken st.links t = some l →
      (is_expired l.expires_at now = true →
        redeem st t pw now = (.gone, st)) ∧
      (is_expired l.expires_at now = false →
        verify pw l.password_hash = false →
          redeem st t pw now = (.unauthorized, st)) ∧
      (is_expired l.expires_at now = false →
        verify pw l.password_hash = true →
        ∀ f, findFile st.files l.file_id = some f →
          redeem st t pw now =
            (.ok f.content, { st with links := bumpAccess st.links t }) ∧
          findByToken (bumpAccess st.links t) t =
            some { l with access_count := l.access_count + 1 })) := by
  refine ⟨fun h => by simp [redeem, h], fun l hl => ⟨fun he => ?_,
    fun he hv => ?_, fun he hv f hf => ⟨?_, ?_⟩⟩⟩
  · simp [redeem, hl, he]
  · simp [redeem, hl, he, hv]
  · simp [redeem, hl, he, hv, hf]
  · rw [findByToken_bumpAccess, hl]
    rfl

/-- Witness for C1: a successful redemption of `st0`'s password-protected
link. -/
theorem redeem_check_order_witness :
    redeem st0 "tok" (some "abc123") 5 =
      (.ok "hello", { st0 with links := bumpAccess st0.links "tok" }) :=
  (((redeem_check_order st0 "tok" (some "abc123") 5).2 l0 rfl).2.2
    rfl rfl f0 rfl).1

/-- Claim C2: `access_count` starts at 0 on creation, is incremented by
exactly one (for the redeemed token, other links untouched) on a successful
redemption, is left unchanged by failed redemptions and by public metadata
fetches, survives creation and deletion of other links unchanged, and is
pointwise non-decreasing under the increment. -/
theorem access_count_spec :
    (∀ st owner fid pw hours now nid ntok l st',
        create_link st owner fid pw hours now nid ntok = (.ok l, st') →
          l.access_count = 0) ∧
    (∀ st t now, (resolve_public st t now).2 = st) ∧
    (∀ st t pw now, (∀ c, (redeem st t pw now).1 ≠ RedeemResult.ok c) →
        (redeem st t pw now).2 = st) ∧
    (∀ st t pw now c, (redeem st t pw now).1 = RedeemResult.ok c →
        (redeem st t pw now).2.links = bumpAccess st.links t) ∧
    (∀ links t, List.Forall₂
        (fun a b : ShareLink =>
          a.access_count ≤ b.access_count ∧
          (a.token = t → b.access_count = a.access_count + 1) ∧
          (a.token ≠ t → b = a))
        links (bumpAccess links t)) ∧
    (∀ st owner fid pw hours now nid ntok l,
        l ∈ st.links →
          l ∈ (create_link st owner fid pw hours now nid ntok).2.links) ∧
    (∀ st req linkId l,
        l ∈ (delete_link st req linkId).2.links → l ∈ st.links) := by
  refine ⟨?_, ?_, ?_, ?_, ?_, ?_, ?_⟩
  · intro st owner fid pw hours now nid ntok l st' h
    unfold create_link at h
    split at h
    · simp at h
    · split at h
      · rw [Prod.mk.injEq] at h
        obtain ⟨h1, -⟩ := h
        cases h1
        rfl
      · simp at h
  · intro st t now
    cases hf : findByToken st.links t with
    | none => simp [resolve_public, hf]
    | some l =>
      by_cases he : is_expired l.expires_at now
      · simp [resolve_public, hf, he]
      · cases hff : findFile st.files l.file_id <;>
          simp [resolve_public, hf, he, hff]
  · intro st t pw now h
    cases hf : findByToken st.links t with
    | none => simp [redeem, hf]
    | some l =>
      by_cases he : is_expired l.expires_at now
      · simp [redeem, hf, he]
      · by_cases hv : verify pw l.password_hash
        · cases hff : findFile st.files l.file_id with
          | none => simp [redeem, hf, he, hv, hff]
          | some f =>
            exact absurd (by simp [redeem, hf, he, hv, hff]) (h f.content)
        · simp [redeem, hf, he, hv]
  · intro st t pw now c h
    cases hf : findByToken st.links t with
    | none => simp [redeem, hf] at h
    | some l =>
      by_cases he : is_expired l.expires_at now
      · simp [redeem, hf, he] at h
      · by_cases hv : verify pw l.password_hash
        · cases hff : findFile st.files l.file_id with
          | none => simp [redeem, hf, he, hv, hff] at h
          | some f => simp [redeem, hf, he, hv, hff]
        · simp [redeem, hf, he, hv] at h
  · intro links t
    induction links with
    | nil => exact List.Forall₂.nil
    | cons a as ih =>
      refine List.Forall₂.cons ?_ ih
      by_cases h : a.token = t
      · simp [h]
      · simp [h]
  · intro st owner fid pw hours now nid ntok l hl
    unfold create_link
    split
    · exact hl
    · split
      · exact List.mem_cons_of_mem _ hl
      · exact hl
  · intro st req linkId l hl
    unfold delete_link at hl
    split at hl
    · exact hl
    · split at hl
      · exact List.mem_of_mem_filter hl
      · exact hl

/-- Witness for C2: the successful redemption of `st0`'s link applies the
access-count bump. -/
theorem access_count_witness :
    (redeem st0 "tok" (some "abc123") 5).2.links =
      bumpAccess st0.links "tok" :=
  access_count_spec.2.2.2.1 st0 "tok" (some "abc123") 5 "hello" rfl

/-- Claim C3: `is_expired` (and the frontend `isExpired`, which agrees with
it) is the pure comparison `expires_at < now`, the boundary instant and the
absent expiry both counting as not expired; and a link created with
`expires_in_hours = h` resolves and redeems successfully at every check
time up to and including `created_at + h` hours and reports `Gone` at every
later time. -/
theorem expiry_boundary_spec :
    (∀ now, isExpired none now = false) ∧
    (∀ e now, isExpired (some e) now = decide (e < now)) ∧
    (∀ e now, is_expired e now = isExpired e now) ∧
    (∀ st owner fid pw h now nid ntok f checkTime l st',
      findFile st.files fid = some f →
      f.fowner = owner →
      create_link st owner fid pw (some h) now nid ntok = (.ok l, st') →
        ((checkTime ≤ now + h * msPerHour →
          (resolve_public st' ntok checkTime).1 =
            .ok { file_name := f.name, file_size := f.size,
                  file_type := f.ftype,
                  requires_password := (pw.map hashPassword).isSome,
                  expires_at := some (now + h * msPerHour) } ∧
          (redeem st' ntok pw checkTime).1 = .ok f.content) ∧
         (now + h * msPerHour < checkTime →
          (resolve_public st' ntok checkTime).1 = .gone ∧
          (redeem st' ntok pw checkTime).1 = .gone))) := by
  refine ⟨fun now => rfl, fun e now => rfl, fun e now => by cases e <;> rfl,
    ?_⟩
  intro st owner fid pw h now nid ntok f checkTime l st' hf ho hc
  unfold create_link at hc
  rw [hf] at hc
  simp only [ho, beq_self_eq_true, if_true, Prod.mk.injEq] at hc
  obtain ⟨-, hst⟩ := hc
  subst hst
  have hfind : findByToken
      ({ id := nid, token := ntok, file_id := fid, owner_id := owner,
         password_hash := pw.map hashPassword,
         expires_at := some (now + h * msPerHour),
         access_count := 0, created_at := now } :: st.links) ntok =
      some { id := nid, token := ntok, file_id := fid,
             owner_id := owner, password_hash := pw.map hashPassword,
             expires_at := some (now + h * msPerHour),
             access_count := 0, created_at := now } := by
    simp [findByToken, List.find?]
  constructor
  · intro hck
    have hexp : is_expired (some (now + h * msPerHour)) checkTime = false := by
      simp [is_expired, Nat.not_lt.mpr hck]
    constructor
    · simp [resolve_public, computeExpiry, hfind, hexp, hf]
    · simp [redeem, computeExpiry, hfind, hexp, hf, verify_self]
  · intro hck
    have hexp : is_expired (some (now + h * msPerHour)) checkTime = true := by
      simp [is_expired, hck]
    constructor
    · simp [resolve_public, computeExpiry, hfind, hexp]
    · simp [redeem, computeExpiry, hfind, hexp]

/-- A concrete state with the file `f0` and no links yet, from which the
expiry witness creates a one-hour link. -/
def st1 : ServiceState := { links := [], files := [f0] }

/-- The link the expiry witness creates: one hour of validity from time
0. -/
def l1 : ShareLink :=
  { id := 5, token := "ntk", file_id := 1, owner_id := 10,
    password_hash := none, expires_at := some 3600000,
    access_count := 0, created_at := 0 }

/-- Witness for C3: a link created at time 0 with one hour of validity still
redeems at the boundary instant itself. -/
theorem expiry_boundary_witness :
    (redeem { st1 with links := [l1] } "ntk" none 3600000).1 =
      RedeemResult.ok "hello" :=
  ((expiry_boundary_spec.2.2.2 st1 10 1 none 1 0 5 "ntk" f0 3600000 l1
    { st1 with links := [l1] } rfl rfl rfl).1 (by decide)).2

/-- Claim C4: after its owner (or an admin) deletes a link, `resolve_public`
and `redeem` on its token answer exactly as they do on a token that never
existed — `NotFound`, with no state change — so the two are
indistinguishable to a public caller. -/
theorem deleted_indistinguishable (st : ServiceState) (req : Principal)
    (l : ShareLink) (t : String) (pw : Option String) (now : Nat)
    (hmem : findById st.links l.id = some l)
    (_htok : l.token = t)
    (hauth : req.uid = l.owner_id ∨ req.isAdmin = true)
    (huniq : ∀ x, x ∈ st.links → x.token = t → x.id = l.id) :
    (resolve_public (delete_link st req l.id).2 t now).1 = .notFound ∧
    redeem (delete_link st req l.id).2 t pw now =
      (.notFound, (delete_link st req l.id).2) ∧
    (∀ st2 t2, findByToken st2.links t2 = none →
      (resolve_public st2 t2 now).1 = .notFound ∧
      redeem st2 t2 pw now = (.notFound, st2)) := by
  have hpos : (req.uid == l.owner_id || req.isAdmin) = true := by
    rcases hauth with h | h <;> simp [h]
  have hdel : (delete_link st req l.id).2.links =
      st.links.filter (fun x => x.id != l.id) := by
    simp [delete_link, hmem, hpos]
  have hnone : findByToken (delete_link st req l.id).2.links t = none := by
    rw [hdel]
    rw [findByToken, List.find?_eq_none]
    intro x hx
    rw [List.mem_filter] at hx
    obtain ⟨hx1, hx2⟩ := hx
    intro hxt
    rw [beq_iff_eq] at hxt
    exact absurd (huniq x hx1 hxt) (by simpa using hx2)
  exact ⟨by simp [resolve_public, hnone], by simp [redeem, hnone],
    fun st2 t2 h => ⟨by simp [resolve_public, h], by simp [redeem, h]⟩⟩

/-- Witness for C4: the owner deletes `st0`'s only link; its token then
resolves to `NotFound`. -/
theorem deleted_indistinguishable_witness :
    (resolve_public (delete_link st0 ⟨10, false⟩ 1).2 "tok" 99).1 =
      ResolveResult.notFound :=
  (deleted_indistinguishable st0 ⟨10, false⟩ l0 "tok" none 99 rfl rfl
    (Or.inl rfl) (by decide)).1

/-- Claim C5: on an active token `resolve_public` returns exactly the file
name, file size, file type, the `requires_password` flag and the stored
`expires_at`; the answer is unchanged under any variation of the link's
owner id, file id and password-hash value (with the same presence) and so
never reveals them. -/
theorem resolve_public_fields (st : ServiceState) (t : String) (now : Nat)
    (l : ShareLink) (f : FileRec)
    (hfind : findByToken st.links t = some l)
    (hexp : is_expired l.expires_at now = false)
    (hfile : findFile st.files l.file_id = some f) :
    (resolve_public st t now).1 =
      .ok { file_name := f.name, file_size := f.size, file_type := f.ftype,
            requires_password := l.password_hash.isSome,
            expires_at := l.expires_at } ∧
    (∀ st2 l2 f2,
      findByToken st2.links t = some l2 →
      findFile st2.files l2.file_id = some f2 →
      l2.expires_at = l.expires_at →
      l2.password_hash.isSome = l.password_hash.isSome →
      f2.name = f.name → f2.size = f.size → f2.ftype = f.ftype →
      (resolve_public st2 t now).1 = (resolve_public st t now).1) := by
  constructor
  · simp [resolve_public, hfind, hexp, hfile]
  · intro st2 l2 f2 h1 h2 h3 h4 h5 h6 h7
    simp [resolve_public, hfind, hexp, hfile, h1, h2, h3, h4, h5, h6, h7]

/-- Witness for C5: the metadata of `st0`'s active link. -/
theorem resolve_public_fields_witness :
    (resolve_public st0 "tok" 5).1 =
      ResolveResult.ok
        { file_name := "a.txt", file_size := 3, file_type := "document",
          requires_password := true, expires_at := none } :=
  (resolve_public_fields st0 "tok" 5 l0 f0 rfl rfl rfl).1

/-- Claim C7: `delete_link` answers `NotFound` when no link has the given
id; a requester who is neither the owner nor an admin gets `Forbidden` with
the state (hence the link's record) unchanged; the owner or an admin gets
`Ok` and the link is removed. -/
theorem delete_link_spec (st : ServiceState) (req : Principal)
    (linkId : Nat) :
    (findById st.links linkId = none →
      delete_link st req linkId = (.notFound, st)) ∧
    (∀ l, findById st.links linkId = some l →
      (req.uid ≠ l.owner_id → req.isAdmin = false →
        delete_link st req linkId = (.forbidden, st)) ∧
      ((req.uid = l.owner_id ∨ req.isAdmin = true) →
        (delete_link st req linkId).1 = .ok ∧
        (delete_link st req linkId).2.links =
          st.links.filter (fun x => x.id != linkId) ∧
        ∀ x, x ∈ (delete_link st req linkId).2.links → x.id ≠ linkId)) := by
  refine ⟨fun h => by simp [delete_link, h], fun l hl => ⟨fun h1 h2 => ?_,
    fun h => ?_⟩⟩
  · have hneg : (req.uid == l.owner_id || req.isAdmin) = false := by
      simp [h1, h2]
    simp [delete_link, hl, hneg]
  · have hpos : (req.uid == l.owner_id || req.isAdmin) = true := by
      rcases h with h | h <;> simp [h]
    refine ⟨by simp [delete_link, hl, hpos], by simp [delete_link, hl, hpos],
      ?_⟩
    intro x hx
    have heq : (delete_link st req linkId).2.links =
        st.links.filter (fun y => y.id != linkId) := by
      simp [delete_link, hl, hpos]
    rw [heq, List.mem_filter] at hx
    simpa using hx.2

/-- Witness for C7: a stranger (uid 99, not admin) cannot delete `st0`'s
link; the call returns `Forbidden` and the state is unchanged. -/
theorem delete_link_spec_witness :
    delete_link st0 ⟨99, false⟩ 1 = (DeleteResult.forbidden, st0) :=
  (((delete_link_spec st0 ⟨99, false⟩ 1).2 l0 rfl).1 (by decide) rfl)

/-- Claim C8: `list_links owner` is a permutation of the owner's stored
links — membership holds exactly for the owner's non-deleted links, expired
ones included — and is sorted by `created_at` descending. -/
theorem list_links_spec (st : ServiceState) (owner : Nat) :
    List.Perm (list_links st owner)
      (st.links.filter (fun l => l.owner_id == owner)) ∧
    (∀ l, l ∈ list_links st owner ↔ l ∈ st.links ∧ l.owner_id = owner) ∧
    List.Sorted byCreatedDesc (list_links st owner) ∧
    (∀ l now, l ∈ st.links → l.owner_id = owner →
      is_expired l.expires_at now = true → l ∈ list_links st owner) := by
  have hmem : ∀ l, l ∈ list_links st owner ↔
      l ∈ st.links ∧ l.owner_id = owner := by
    intro l
    rw [list_links, List.mem_insertionSort, List.mem_filter]
    simp
  exact ⟨List.perm_insertionSort _ _, hmem,
    List.sorted_insertionSort byCreatedDesc _,
    fun l now h1 h2 _ => (hmem l).mpr ⟨h1, h2⟩⟩

/-- Witness for C8: `st0`'s link shows up in its owner's listing. -/
theorem list_links_spec_witness : l0 ∈ list_links st0 10 :=
  ((list_links_spec st0 10).2.1 l0).mpr ⟨by decide, rfl⟩

end Kuro
